import Mathlib

/-!
Shallow embedding of the CNC motion-control subsystem of `cnc-control`
(`src/cnc_control/driver.py` and `src/cnc_control/tools.py`).

Python floats are modelled as exact rationals (`ℚ`); `round(value, n)` is
modelled as rounding the scaled value to the nearest integer.  Serial I/O is
abstracted to the streams of texts the code actually inspects: each planner
function receives the current coordinates as an argument instead of polling
the device, and the command/response loop receives the list of response texts
the device would produce, one per command sent.
-/

namespace CNC

/-- Python's `round(q, places)` on an exact rational: round `q · 10^places`
to the nearest integer and scale back. -/
def roundTo (places : ℕ) (q : ℚ) : ℚ := (round (q * 10 ^ places) : ℚ) / 10 ^ places

/-- `round(q, 6)` — applied by every `Coordinates` property setter. -/
def round6 : ℚ → ℚ := roundTo 6

/-- `round(q, 3)` — applied to each axis extracted from a status report. -/
def round3 : ℚ → ℚ := roundTo 3

/-- `tools.Coordinates`: three axes.  Fields hold the post-setter values. -/
structure Coordinates where
  x : ℚ
  y : ℚ
  z : ℚ
deriving DecidableEq, Repr

/-- The `Coordinates(x, y, z)` constructor: every setter stores
`round(value, 6)`. -/
def Coordinates.make (x y z : ℚ) : Coordinates :=
  ⟨round6 x, round6 y, round6 z⟩

/-- The slice of `Mill` state that the motion planner reads:
`working_volume`, `safe_z_height` (initialised to `-10.0`) and
`max_z_height` (initialised to `0.0`, possibly updated after homing). -/
structure MillConfig where
  working_volume : Coordinates
  safe_z_height : ℚ
  max_z_height : ℚ
deriving DecidableEq, Repr

/-- One emitted G-code command; each constructor corresponds to one format
string in `driver.py` (`G01 X{} Y{}`, `G01 X{}`, `G01 Y{}`, `G01 Z{}`,
`G01 Z{} F{}`, `F{}`). -/
inductive GCommand
  | moveXY (x y : ℚ)
  | moveX (x : ℚ)
  | moveY (y : ℚ)
  | moveZ (z : ℚ)
  | moveZFeed (z f : ℚ)
  | setFeed (f : ℚ)
deriving DecidableEq, Repr

/-- `Mill._is_already_at_target`: `(goto.x, goto.y) == (cur.x, cur.y) and
goto.z == cur.z`. -/
def isAlreadyAtTarget (goto current : Coordinates) : Bool :=
  if (goto.x, goto.y) = (current.x, current.y) ∧ goto.z = current.z then true
  else false

/-- `Mill._calculate_target_coordinates` (the `current_coordinates` argument
is accepted and ignored, as in the source). -/
def calculateTargetCoordinates (cfg : MillConfig) (goto : Coordinates)
    (_current : Coordinates) (offsets : Coordinates) : Coordinates :=
  Coordinates.make (goto.x + offsets.x) (goto.y + offsets.y)
    (max (cfg.working_volume.z + 3) (min (goto.z + offsets.z) cfg.max_z_height))

/-- `Mill._validate_target_coordinates`: `none` means the checks pass,
`some msg` means `ValueError(msg)` is raised. -/
def validateTargetCoordinates (cfg : MillConfig) (t : Coordinates) : Option String :=
  if ¬(cfg.working_volume.x ≤ t.x ∧ t.x ≤ 0) then
    some "x coordinate out of range"
  else if ¬(cfg.working_volume.y ≤ t.y ∧ t.y ≤ 0) then
    some "y coordinate out of range"
  else if ¬(cfg.working_volume.z ≤ t.z ∧ t.z ≤ cfg.max_z_height) then
    some "z coordinate out of range"
  else
    none

/-- `Mill._generate_movement_commands`. -/
def generateMovementCommands (cfg : MillConfig)
    (current target : Coordinates) (move_z_first : Bool := false) : List GCommand :=
  if current.z ≥ cfg.safe_z_height ∨ move_z_first = true then
    [.moveXY target.x target.y, .moveZ target.z]
  else
    (if target.x ≠ current.x then [GCommand.moveX target.x] else []) ++
    (if target.y ≠ current.y then [GCommand.moveY target.y] else []) ++
    (if target.z ≠ current.z then [GCommand.moveZ target.z] else []) ++
    (if target.z = current.z ∧ move_z_first = true then [GCommand.moveZ target.z] else [])

/-- `Mill.__should_move_to_safe_position_first`; `safe_height_floor = none`
models the Python default (`self.safe_z_height`). -/
def shouldMoveToSafePositionFirst (cfg : MillConfig)
    (current destination : Coordinates)
    (safe_height_floor : Option ℚ := none) : Bool :=
  let floor := safe_height_floor.getD cfg.safe_z_height
  if current.z ≥ cfg.max_z_height ∨ current.z ≥ floor then false
  else if current.x ≠ destination.x ∨ current.y ≠ destination.y then true
  else false

/-- Outcome of one planning call, before any command is sent. -/
inductive PlanResult
  | outOfRange (msg : String)
  | alreadyAt (pos : Coordinates)
  | plan (commands : List GCommand)
deriving DecidableEq, Repr

/-- The commands a planning outcome hands to `execute_command`
(`outOfRange` raises and `alreadyAt` returns before anything is sent). -/
def PlanResult.commands : PlanResult → List GCommand
  | .plan cmds => cmds
  | _ => []

/-- The planning portion of `Mill.safe_move` (driver.py lines 985–1037):
resolve the target, validate, short-circuit when already there, optionally
prepend the lift to `max_z_height` (note the third argument
`self.max_z_height` passed to `__should_move_to_safe_position_first`),
generate the per-axis or combined moves, and append the optional second-Z
descent with its feed-rate restore. -/
def safeMovePlan (cfg : MillConfig) (current goto offsets : Coordinates)
    (second_z_cord : Option ℚ := none) (second_z_cord_feed : ℚ := 2000) : PlanResult :=
  (validateTargetCoordinates cfg
      (calculateTargetCoordinates cfg goto current offsets)).elim
    (if isAlreadyAtTarget (calculateTargetCoordinates cfg goto current offsets)
        current then
      .alreadyAt current
     else
      .plan
        ((if shouldMoveToSafePositionFirst cfg current
              (calculateTargetCoordinates cfg goto current offsets)
              (some cfg.max_z_height) then [GCommand.moveZ cfg.max_z_height]
          else []) ++
         generateMovementCommands cfg current
           (calculateTargetCoordinates cfg goto current offsets)
           (shouldMoveToSafePositionFirst cfg current
             (calculateTargetCoordinates cfg goto current offsets)
             (some cfg.max_z_height)) ++
         second_z_cord.elim []
           (fun z2 => [GCommand.moveZFeed (z2 + offsets.z) second_z_cord_feed,
                       GCommand.setFeed 2000])))
    (fun msg => .outOfRange msg)

/-- The planning portion of `Mill.move_to_position` (driver.py lines
844–875): resolve the target, short-circuit when already there (before any
validation), validate, then emit the movement commands. -/
def moveToPositionPlan (cfg : MillConfig) (current goto offsets : Coordinates) :
    PlanResult :=
  if isAlreadyAtTarget (calculateTargetCoordinates cfg goto current offsets)
      current then
    .alreadyAt current
  else
    (validateTargetCoordinates cfg
        (calculateTargetCoordinates cfg goto current offsets)).elim
      (.plan (generateMovementCommands cfg current
        (calculateTargetCoordinates cfg goto current offsets)))
      (fun msg => .outOfRange msg)

/-- `q` is exactly representable with `places` decimal places — the
invariant the `Coordinates` setters establish by storing `round(value, 6)`. -/
def Dec (places : ℕ) (q : ℚ) : Prop := ∃ k : ℤ, q = (k : ℚ) / 10 ^ places

/-- `needle in haystack`, Python's substring test (also what `re.search` on
a literal pattern decides). -/
def containsTok (needle haystack : String) : Bool :=
  decide (needle.toList <:+: haystack.toList)

/-- Python's `str.lower()`, mapping every character to lower case. -/
def strLower (s : String) : String := String.mk (s.toList.map Char.toLower)

/-- Python's `s.startswith(pre)`. -/
def strStartsWith (s pre : String) : Bool := decide (pre.toList <+: s.toList)

/-- Outcome of `Mill.__wait_for_completion`: loop exit on an idle status, a
raised `StatusReturnError` (error or alarm text), the timeout path that
returns the last status, or running out of modelled poll results. -/
inductive WaitOutcome
  | completed (status : String)
  | raisedError (status : String)
  | raisedAlarm (status : String)
  | timedOut (status : String)
  | noStatus
deriving DecidableEq, Repr

/-- `Mill.__wait_for_completion` (driver.py lines 621–639).  Wall-clock time
is made explicit: `start_time` is the loop's elapsed-time origin, `now` the
time at which the current status is inspected, and `polls` the timestamped
statuses later calls of `current_status()` would observe. -/
def waitForCompletion (timeout : ℚ) :
    String → ℚ → ℚ → List (ℚ × String) → WaitOutcome
  | status, start_time, now, polls =>
    if containsTok "Idle" status then .completed status
    else
      let start_time := if containsTok "<Run" status then now else start_time
      if containsTok "error" status then .raisedError status
      else if containsTok "alarm" status then .raisedAlarm status
      else if now - start_time > timeout then .timedOut status
      else
        match polls with
        | [] => .noStatus
        | (t, s) :: rest => waitForCompletion timeout s start_time t rest

/-- Result of `Mill.execute_command` for one command: the returned response
text, or the `CommandExecutionError` that wraps whatever was raised —
`StatusReturnError` from the classifier or from inside
`__wait_for_completion`, both carrying the offending device text. -/
inductive ExecResult
  | ok (response : String)
  | failure (response : String)
  | outOfFuel
deriving DecidableEq, Repr

/-- One command round-trip as `execute_command` sees it: the text the
immediate `self.read()` returns, and — used only when the command does not
start with `$` and therefore blocks in `__wait_for_completion` — the
wall-clock origin of that wait together with the timestamped statuses
`current_status()` would deliver while it polls. -/
structure Exchange where
  response : String
  t0 : ℚ
  polls : List (ℚ × String)
deriving DecidableEq, Repr

/-- `Mill.execute_command` (driver.py lines 509–580) over the stream of
per-command exchanges; the multi-line `$$` settings branch is out of scope.
The immediate response is lowercased (line 553).  A command not starting
with `$` then blocks in `__wait_for_completion` (line 556), whose
error/alarm raise happens before the classifier at line 561 ever runs and
is wrapped by the broad `except` of line 574 into `CommandExecutionError`;
a `$`-command hands its lowercased response straight to the classifier,
modelled as an immediately completed wait.  At classification, a surviving
response containing `error:22` triggers `set_feed_rate(2000)` — itself a
recursive `execute_command("F2000")`, consuming the next exchange — and
then a recursive re-execution of the original command; any other
error/alarm text raises.  `fuel` bounds the recursion depth, which the
source leaves unbounded. -/
def execCommand : ℕ → String → List Exchange → ExecResult × List Exchange
  | 0, _, es => (.outOfFuel, es)
  | _ + 1, _, [] => (.outOfFuel, [])
  | fuel + 1, command, e :: rest =>
    match (if strStartsWith command "$" then
            WaitOutcome.completed (strLower e.response)
           else waitForCompletion 5 (strLower e.response) e.t0 e.t0 e.polls) with
    | .completed s | .timedOut s =>
      if containsTok "error" s || containsTok "alarm" s then
        if containsTok "error:22" s then
          match execCommand fuel "F2000" rest with
          | (.ok _, rest1) => execCommand fuel command rest1
          | other => other
        else (.failure s, rest)
      else (.ok s, rest)
    | .raisedError s => (.failure s, rest)
    | .raisedAlarm s => (.failure s, rest)
    | .noStatus => (.outOfFuel, rest)

/-- An exchange whose immediate response is a bare acknowledgment and whose
first poll returns a buffered chunk holding the queued `error:22` together
with an idle report — the one shape under which error text survives
`__wait_for_completion` and reaches the classifier: the loop raises on any
error-bearing status unless that same status also contains the
capital-letter `Idle` token (and the lowercased initial response never
does). -/
def errorIdleExchange : Exchange := ⟨"ok", 0, [(0, "error:22 <Idle|MPos:0,0,0>")]⟩

/-- An exchange that acknowledges and then reports a clean idle status. -/
def okExchange : Exchange := ⟨"ok", 0, [(0, "<Idle|MPos:0,0,0>")]⟩

/-- The position-extraction step of `Mill.current_coordinates` (driver.py
lines 753–796), after the regex has captured the three decimal fields of the
`WPos`/`MPos` tag: status mode 0 or 2 selects the work frame, anything else
(the driver has already checked the mode is in `[0, 3]`, so 1 or 3) the
machine frame; each captured value is rounded to 3 decimals and, for the
machine frame, offset by the homing pull-off (`$27`). -/
def extractStatusPosition (status_mode : ℤ) (homing_pull_off : ℚ)
    (raw : ℚ × ℚ × ℚ) : Coordinates :=
  let x_coord := round3 raw.1
  let y_coord := round3 raw.2.1
  let z_coord := round3 raw.2.2
  if status_mode = 0 ∨ status_mode = 2 then
    Coordinates.make x_coord y_coord z_coord
  else
    Coordinates.make (x_coord + homing_pull_off) (y_coord + homing_pull_off)
      (z_coord + homing_pull_off)

/-- The controller settings `read_working_volume` consults: `$20` (soft
limits enabled), `$130`/`$131`/`$132` (max travel per axis). -/
structure GrblSettings where
  softLimits : ℤ
  maxTravelX : ℚ
  maxTravelY : ℚ
  maxTravelZ : ℚ
deriving DecidableEq, Repr

/-- `Mill.read_working_volume`: negated travel limits when soft limits are
enabled, otherwise the hard-coded fallback `(-415, -300, -200)`. -/
def readWorkingVolume (config : GrblSettings) : Coordinates :=
  if config.softLimits = 1 then
    Coordinates.make (config.maxTravelX * (-1)) (config.maxTravelY * (-1))
      (config.maxTravelZ * (-1))
  else
    Coordinates.make (-415) (-300) (-200)

/-- The session state the connect path touches. -/
structure MillState where
  config : GrblSettings
  working_volume : Coordinates
  homed : Bool
  active_connection : Bool
  safe_z_height : ℚ
  max_z_height : ℚ
deriving DecidableEq, Repr

/-- `Mill.__init__`: load the persisted config, derive the working volume
from it, initialise `safe_z_height = -10.0` and `max_z_height = 0.0`. -/
def millInit (fileConfig : GrblSettings) : MillState :=
  { config := fileConfig
    working_volume := readWorkingVolume fileConfig
    homed := false
    active_connection := false
    safe_z_height := -10
    max_z_height := 0 }

/-- The state effect of a successful `Mill.connect_to_mill` (driver.py lines
336–357): `active_connection` is set, `read_mill_config` stores the settings
just read from the device in `self.config`, `write_mill_config_file`
persists them, and line 353 calls `self.read_working_volume()` but discards
its return value, so `self.working_volume` is left untouched. -/
def connectToMill (s : MillState) (deviceSettings : GrblSettings) : MillState :=
  { s with config := deviceSettings, active_connection := true }

/-- `ToolManager.tool_offsets`: an insertion-ordered mapping from tool name
to offset, modelled as a key-unique association list. -/
abbrev ToolStore := List (String × Coordinates)

/-- `tools.default_tool_json`, written and loaded when the storage file is
absent or corrupt. -/
def defaultToolJson : ToolStore :=
  [("center", Coordinates.make 0 0 0),
   ("pipette", Coordinates.make 0 0 0),
   ("electrode", Coordinates.make 0 0 0),
   ("decapper", Coordinates.make 0 0 0),
   ("lens", Coordinates.make 0 0 0)]

/-- `self.tool_offsets.get(name)` (the offset part). -/
def lookupTool (store : ToolStore) (name : String) : Option Coordinates :=
  (store.find? fun p => p.1 == name).map Prod.snd

/-- `name in self.tool_offsets`. -/
def hasTool (store : ToolStore) (name : String) : Bool :=
  store.any fun p => p.1 == name

/-- `self.tool_offsets[name].offset = offset` on an existing key. -/
def setTool (store : ToolStore) (name : String) (offset : Coordinates) : ToolStore :=
  store.map fun p => if p.1 == name then (p.1, offset) else p

/-- One `ToolManager` mutation or read.  `add` is `add_tool`, `update` is
`update_tool` (raises if the name is absent, leaving the store unchanged),
`delete` is `delete_tool` (likewise), `get` is `get_tool`/`get_offset`. -/
inductive ToolOp
  | add (name : String) (offset : Coordinates)
  | update (name : String) (offset : Coordinates)
  | delete (name : String)
  | get (name : String)
deriving DecidableEq, Repr

/-- The tool name an operation addresses. -/
def ToolOp.target : ToolOp → String
  | .add n _ => n
  | .update n _ => n
  | .delete n => n
  | .get n => n

/-- The store after one `ToolManager` operation (`tools.py` lines 179–232);
operations that raise (`update`/`delete` on a missing name) leave the store
as it was. -/
def applyToolOp (store : ToolStore) : ToolOp → ToolStore
  | .add n off => if hasTool store n then setTool store n off else store ++ [(n, off)]
  | .update n off => if hasTool store n then setTool store n off else store
  | .delete n => if hasTool store n then store.filter (fun p => !(p.1 == n)) else store
  | .get _ => store

/-- A whole sequence of `ToolManager` operations. -/
def applyToolOps (store : ToolStore) (ops : List ToolOp) : ToolStore :=
  ops.foldl applyToolOp store

theorem roundTo_eq_self {places : ℕ} {q : ℚ} (h : Dec places q) :
    roundTo places q = q := by
  obtain ⟨k, rfl⟩ := h
  unfold roundTo
  rw [div_mul_cancel₀ _ (by positivity : (10 : ℚ) ^ places ≠ 0), round_intCast]

theorem Dec.add {places : ℕ} {a b : ℚ} (ha : Dec places a) (hb : Dec places b) :
    Dec places (a + b) := by
  obtain ⟨k, rfl⟩ := ha; obtain ⟨m, rfl⟩ := hb
  exact ⟨k + m, by push_cast; ring⟩

theorem Dec.min {places : ℕ} {a b : ℚ} (ha : Dec places a) (hb : Dec places b) :
    Dec places (min a b) := by
  rcases min_choice a b with h | h <;> rw [h] <;> assumption

theorem Dec.max {places : ℕ} {a b : ℚ} (ha : Dec places a) (hb : Dec places b) :
    Dec places (max a b) := by
  rcases max_choice a b with h | h <;> rw [h] <;> assumption

theorem Dec.roundTo (places : ℕ) (q : ℚ) : Dec places (roundTo places q) :=
  ⟨round (q * 10 ^ places), rfl⟩

theorem Dec.mono {p p' : ℕ} {q : ℚ} (h : p ≤ p') (hq : Dec p q) : Dec p' q := by
  obtain ⟨k, rfl⟩ := hq
  refine ⟨k * 10 ^ (p' - p), ?_⟩
  have hp : p + (p' - p) = p' := by omega
  push_cast
  rw [← hp, pow_add]
  field_simp
  ring

/-- Unfolding `safeMovePlan` on the invalid-target path. -/
theorem safeMovePlan_outOfRange (cfg : MillConfig)
    (current goto offsets target : Coordinates) (sz : Option ℚ) (szf : ℚ)
    (msg : String)
    (ht : calculateTargetCoordinates cfg goto current offsets = target)
    (hv : validateTargetCoordinates cfg target = some msg) :
    safeMovePlan cfg current goto offsets sz szf = .outOfRange msg := by
  subst ht
  simp only [safeMovePlan, hv, Option.elim_some]

/-- Unfolding `safeMovePlan` on the already-at-target path. -/
theorem safeMovePlan_alreadyAt (cfg : MillConfig)
    (current goto offsets target : Coordinates) (sz : Option ℚ) (szf : ℚ)
    (ht : calculateTargetCoordinates cfg goto current offsets = target)
    (hv : validateTargetCoordinates cfg target = none)
    (ha : isAlreadyAtTarget target current = true) :
    safeMovePlan cfg current goto offsets sz szf = .alreadyAt current := by
  subst ht
  simp only [safeMovePlan, hv, ha, Option.elim_none, if_true]

/-- Unfolding `safeMovePlan` on the path that emits commands. -/
theorem safeMovePlan_plan (cfg : MillConfig)
    (current goto offsets target : Coordinates) (sz : Option ℚ) (szf : ℚ)
    (ht : calculateTargetCoordinates cfg goto current offsets = target)
    (hv : validateTargetCoordinates cfg target = none)
    (ha : isAlreadyAtTarget target current = false) :
    safeMovePlan cfg current goto offsets sz szf =
      .plan ((if shouldMoveToSafePositionFirst cfg current target
                (some cfg.max_z_height) then [GCommand.moveZ cfg.max_z_height]
              else []) ++
        generateMovementCommands cfg current target
          (shouldMoveToSafePositionFirst cfg current target (some cfg.max_z_height)) ++
        sz.elim []
          (fun z2 => [GCommand.moveZFeed (z2 + offsets.z) szf,
                      GCommand.setFeed 2000])) := by
  subst ht
  simp only [safeMovePlan, hv, ha, Option.elim_none, Bool.false_eq_true, if_false]

/-- Unfolding `moveToPositionPlan` on the already-at-target path. -/
theorem moveToPositionPlan_alreadyAt (cfg : MillConfig)
    (current goto offsets target : Coordinates)
    (ht : calculateTargetCoordinates cfg goto current offsets = target)
    (ha : isAlreadyAtTarget target current = true) :
    moveToPositionPlan cfg current goto offsets = .alreadyAt current := by
  subst ht
  simp only [moveToPositionPlan, ha, if_true]

/-- Unfolding `moveToPositionPlan` on the invalid-target path. -/
theorem moveToPositionPlan_outOfRange (cfg : MillConfig)
    (current goto offsets target : Coordinates) (msg : String)
    (ht : calculateTargetCoordinates cfg goto current offsets = target)
    (ha : isAlreadyAtTarget target current = false)
    (hv : validateTargetCoordinates cfg target = some msg) :
    moveToPositionPlan cfg current goto offsets = .outOfRange msg := by
  subst ht
  simp only [moveToPositionPlan, ha, Bool.false_eq_true, if_false, hv,
    Option.elim_some]

/-- Unfolding `moveToPositionPlan` on the path that emits commands. -/
theorem moveToPositionPlan_plan (cfg : MillConfig)
    (current goto offsets target : Coordinates)
    (ht : calculateTargetCoordinates cfg goto current offsets = target)
    (ha : isAlreadyAtTarget target current = false)
    (hv : validateTargetCoordinates cfg target = none) :
    moveToPositionPlan cfg current goto offsets =
      .plan (generateMovementCommands cfg current target) := by
  subst ht
  simp only [moveToPositionPlan, ha, Bool.false_eq_true, if_false, hv,
    Option.elim_none]

/-- With `self.max_z_height` passed as the `safe_height_floor` argument — as
both call sites in the source do — the lift decision collapses to: lift iff
current Z is strictly below `max_z_height` and X or Y changes.  The
`safe_z_height` comparison is subsumed, because the first guard reads
`current.z >= max_z_height or current.z >= safe_height_floor` with both
bounds equal. -/
theorem shouldMove_maxZ_floor (cfg : MillConfig) (current dest : Coordinates) :
    shouldMoveToSafePositionFirst cfg current dest (some cfg.max_z_height) =
      decide (current.z < cfg.max_z_height ∧
        (current.x ≠ dest.x ∨ current.y ≠ dest.y)) := by
  simp only [shouldMoveToSafePositionFirst, Option.getD_some, or_self]
  by_cases h1 : current.z ≥ cfg.max_z_height
  · rw [if_pos h1, eq_comm, decide_eq_false_iff_not]
    rintro ⟨hlt, -⟩
    exact absurd hlt (not_lt.2 h1)
  · rw [if_neg h1]
    push_neg at h1
    by_cases h2 : current.x ≠ dest.x ∨ current.y ≠ dest.y
    · rw [if_pos h2, eq_comm, decide_eq_true_eq]
      exact ⟨h1, h2⟩
    · rw [if_neg h2, eq_comm, decide_eq_false_iff_not]
      rintro ⟨-, hxy⟩
      exact h2 hxy

/-- C2: for every requested position and tool offset (all coordinates being
6-decimal values, as the `Coordinates` setters guarantee), the resolved
target is `(requested_x + offset.x, requested_y + offset.y,
max(working_volume.z + 3, min(requested_z + offset.z, max_z_height)))`;
the 6-decimal rounding applied on construction changes nothing. -/
theorem c2_resolved_target (cfg : MillConfig) (goto current offsets : Coordinates)
    (hgx : Dec 6 goto.x) (hgy : Dec 6 goto.y) (hgz : Dec 6 goto.z)
    (hox : Dec 6 offsets.x) (hoy : Dec 6 offsets.y) (hoz : Dec 6 offsets.z)
    (hwz : Dec 6 cfg.working_volume.z) (hmz : Dec 6 cfg.max_z_height) :
    calculateTargetCoordinates cfg goto current offsets =
      ⟨goto.x + offsets.x, goto.y + offsets.y,
       max (cfg.working_volume.z + 3)
         (min (goto.z + offsets.z) cfg.max_z_height)⟩ := by
  unfold calculateTargetCoordinates Coordinates.make round6
  have h3 : Dec 6 (3 : ℚ) := ⟨3 * 10 ^ 6, by norm_num⟩
  rw [roundTo_eq_self (hgx.add hox), roundTo_eq_self (hgy.add hoy),
    roundTo_eq_self ((hwz.add h3).max ((hgz.add hoz).min hmz))]

/-- C2 witness: with tool offset `(10, 10, 10)`, requested target
`(-200, -200, -75)`, `max_z_height = 0` and the default working volume, the
resolved target is `(-190, -190, -65)`. -/
theorem c2_resolved_target_witness :
    calculateTargetCoordinates ⟨⟨-415, -300, -200⟩, -10, 0⟩ ⟨-200, -200, -75⟩
      ⟨-100, -100, -50⟩ ⟨10, 10, 10⟩ = ⟨-190, -190, -65⟩ := by
  rw [c2_resolved_target ⟨⟨-415, -300, -200⟩, -10, 0⟩ ⟨-200, -200, -75⟩
      ⟨-100, -100, -50⟩ ⟨10, 10, 10⟩
      ⟨-200 * 10 ^ 6, by norm_num⟩ ⟨-200 * 10 ^ 6, by norm_num⟩
      ⟨-75 * 10 ^ 6, by norm_num⟩ ⟨10 * 10 ^ 6, by norm_num⟩
      ⟨10 * 10 ^ 6, by norm_num⟩ ⟨10 * 10 ^ 6, by norm_num⟩
      ⟨-200 * 10 ^ 6, by norm_num⟩ ⟨0, by norm_num⟩]
  show Coordinates.mk _ _ _ = _
  norm_num

/-- C4: when the resolved target equals the current position on all three
axes, `move_to_position` emits zero commands and returns the current
position unchanged. -/
theorem c4_idempotence (cfg : MillConfig) (current goto offsets : Coordinates)
    (ht : calculateTargetCoordinates cfg goto current offsets = current) :
    moveToPositionPlan cfg current goto offsets = .alreadyAt current ∧
    (moveToPositionPlan cfg current goto offsets).commands = [] := by
  have h := moveToPositionPlan_alreadyAt cfg current goto offsets current ht
    (by simp [isAlreadyAtTarget])
  exact ⟨h, by rw [h]; rfl⟩

/-- C4 witness: requesting the position the mill is already at. -/
theorem c4_idempotence_witness :
    moveToPositionPlan ⟨⟨-415, -300, -200⟩, -10, 0⟩ ⟨-100, -100, -50⟩
        ⟨-100, -100, -50⟩ ⟨0, 0, 0⟩ = .alreadyAt ⟨-100, -100, -50⟩ ∧
    (moveToPositionPlan ⟨⟨-415, -300, -200⟩, -10, 0⟩ ⟨-100, -100, -50⟩
        ⟨-100, -100, -50⟩ ⟨0, 0, 0⟩).commands = [] :=
  c4_idempotence ⟨⟨-415, -300, -200⟩, -10, 0⟩ ⟨-100, -100, -50⟩
    ⟨-100, -100, -50⟩ ⟨0, 0, 0⟩
    (by norm_num [calculateTargetCoordinates, Coordinates.make, round6, roundTo,
      round_eq])

/-- C3: if the resolved target violates the X, Y or Z bound, `safe_move`
raises an out-of-range failure whose message names an axis that is indeed
out of range, and hands no commands to `execute_command`. -/
theorem c3_bounds_validation (cfg : MillConfig)
    (current goto offsets target : Coordinates) (sz : Option ℚ) (szf : ℚ)
    (ht : calculateTargetCoordinates cfg goto current offsets = target)
    (hout : ¬((cfg.working_volume.x ≤ target.x ∧ target.x ≤ 0) ∧
              (cfg.working_volume.y ≤ target.y ∧ target.y ≤ 0) ∧
              (cfg.working_volume.z ≤ target.z ∧ target.z ≤ cfg.max_z_height))) :
    ∃ msg, safeMovePlan cfg current goto offsets sz szf = .outOfRange msg ∧
      (safeMovePlan cfg current goto offsets sz szf).commands = [] ∧
      ((msg = "x coordinate out of range" ∧
          ¬(cfg.working_volume.x ≤ target.x ∧ target.x ≤ 0)) ∨
       (msg = "y coordinate out of range" ∧
          ¬(cfg.working_volume.y ≤ target.y ∧ target.y ≤ 0)) ∨
       (msg = "z coordinate out of range" ∧
          ¬(cfg.working_volume.z ≤ target.z ∧ target.z ≤ cfg.max_z_height))) := by
  by_cases hx : cfg.working_volume.x ≤ target.x ∧ target.x ≤ 0
  · by_cases hy : cfg.working_volume.y ≤ target.y ∧ target.y ≤ 0
    · have hz : ¬(cfg.working_volume.z ≤ target.z ∧ target.z ≤ cfg.max_z_height) :=
        fun hz => hout ⟨hx, hy, hz⟩
      have hv : validateTargetCoordinates cfg target =
          some "z coordinate out of range" := by
        unfold validateTargetCoordinates
        rw [if_neg (not_not_intro hx), if_neg (not_not_intro hy), if_pos hz]
      have h := safeMovePlan_outOfRange cfg current goto offsets target sz szf _ ht hv
      exact ⟨_, h, by rw [h]; rfl, Or.inr (Or.inr ⟨rfl, hz⟩)⟩
    · have hv : validateTargetCoordinates cfg target =
          some "y coordinate out of range" := by
        unfold validateTargetCoordinates
        rw [if_neg (not_not_intro hx), if_pos hy]
      have h := safeMovePlan_outOfRange cfg current goto offsets target sz szf _ ht hv
      exact ⟨_, h, by rw [h]; rfl, Or.inr (Or.inl ⟨rfl, hy⟩)⟩
  · have hv : validateTargetCoordinates cfg target =
        some "x coordinate out of range" := by
      unfold validateTargetCoordinates
      rw [if_pos hx]
    have h := safeMovePlan_outOfRange cfg current goto offsets target sz szf _ ht hv
    exact ⟨_, h, by rw [h]; rfl, Or.inl ⟨rfl, hx⟩⟩

/-- C3 witness: a target whose X lies above 0 is rejected with the X
message and no commands. -/
theorem c3_bounds_validation_witness :
    ∃ msg, safeMovePlan ⟨⟨-415, -300, -200⟩, -10, 0⟩ ⟨-100, -100, -50⟩
        ⟨5, -100, -50⟩ ⟨0, 0, 0⟩ none 2000 = .outOfRange msg ∧
      (safeMovePlan ⟨⟨-415, -300, -200⟩, -10, 0⟩ ⟨-100, -100, -50⟩
        ⟨5, -100, -50⟩ ⟨0, 0, 0⟩ none 2000).commands = [] ∧
      ((msg = "x coordinate out of range" ∧
          ¬((-415 : ℚ) ≤ (5 : ℚ) ∧ (5 : ℚ) ≤ 0)) ∨
       (msg = "y coordinate out of range" ∧
          ¬((-300 : ℚ) ≤ (-100 : ℚ) ∧ (-100 : ℚ) ≤ 0)) ∨
       (msg = "z coordinate out of range" ∧
          ¬((-200 : ℚ) ≤ (-50 : ℚ) ∧ (-50 : ℚ) ≤ 0))) :=
  c3_bounds_validation ⟨⟨-415, -300, -200⟩, -10, 0⟩ ⟨-100, -100, -50⟩
    ⟨5, -100, -50⟩ ⟨0, 0, 0⟩ ⟨5, -100, -50⟩ none 2000
    (by norm_num [calculateTargetCoordinates, Coordinates.make, round6, roundTo,
      round_eq])
    (by norm_num)

/-- C10: when the resolved target equals the current position but violates
the bounds, `safe_move` raises the out-of-range failure (it validates before
its already-at-target check) while `move_to_position` returns the current
position without raising (it checks already-at-target first). -/
theorem c10_entry_point_order (cfg : MillConfig)
    (current goto offsets : Coordinates) (msg : String)
    (ht : calculateTargetCoordinates cfg goto current offsets = current)
    (hv : validateTargetCoordinates cfg current = some msg) :
    safeMovePlan cfg current goto offsets none 2000 = .outOfRange msg ∧
    moveToPositionPlan cfg current goto offsets = .alreadyAt current :=
  ⟨safeMovePlan_outOfRange cfg current goto offsets current none 2000 msg ht hv,
   moveToPositionPlan_alreadyAt cfg current goto offsets current ht
     (by simp [isAlreadyAtTarget])⟩

/-- C10 witness: the mill sits at `(5, -100, -50)` (X out of bounds) and is
asked to go exactly there. -/
theorem c10_entry_point_order_witness :
    safeMovePlan ⟨⟨-415, -300, -200⟩, -10, 0⟩ ⟨5, -100, -50⟩ ⟨5, -100, -50⟩
        ⟨0, 0, 0⟩ none 2000 = .outOfRange "x coordinate out of range" ∧
    moveToPositionPlan ⟨⟨-415, -300, -200⟩, -10, 0⟩ ⟨5, -100, -50⟩
        ⟨5, -100, -50⟩ ⟨0, 0, 0⟩ = .alreadyAt ⟨5, -100, -50⟩ :=
  c10_entry_point_order ⟨⟨-415, -300, -200⟩, -10, 0⟩ ⟨5, -100, -50⟩
    ⟨5, -100, -50⟩ ⟨0, 0, 0⟩ "x coordinate out of range"
    (by norm_num [calculateTargetCoordinates, Coordinates.make, round6, roundTo,
      round_eq])
    (by norm_num [validateTargetCoordinates])

/-- C1 (amended): for every safe move request that passes validation and is
not already at its target, the prior lift command to `max_z_height` is
emitted if and only if the current Z is below `max_z_height` and the target
X or Y differs from the current X or Y.  `safe_z_height` plays no role in
the lift decision, because `safe_move` passes `self.max_z_height` as the
`safe_height_floor` argument. -/
theorem c1_lift_decision (cfg : MillConfig)
    (current goto offsets target : Coordinates)
    (ht : calculateTargetCoordinates cfg goto current offsets = target)
    (hv : validateTargetCoordinates cfg target = none)
    (ha : isAlreadyAtTarget target current = false) :
    safeMovePlan cfg current goto offsets none 2000 =
      .plan ((if current.z < cfg.max_z_height ∧
                (current.x ≠ target.x ∨ current.y ≠ target.y)
              then [GCommand.moveZ cfg.max_z_height] else []) ++
        generateMovementCommands cfg current target
          (decide (current.z < cfg.max_z_height ∧
            (current.x ≠ target.x ∨ current.y ≠ target.y)))) := by
  have h := safeMovePlan_plan cfg current goto offsets target none 2000 ht hv ha
  rw [h, shouldMove_maxZ_floor]
  simp only [Option.elim_none, List.append_nil, decide_eq_true_eq]

/-- C1 witness: the spec example — current `(-100, -100, -50)`, target
`(-200, -200, -75)`, centre tool — where the lift to `max_z_height = 0` is
emitted. -/
theorem c1_lift_decision_witness :
    safeMovePlan ⟨⟨-415, -300, -200⟩, -10, 0⟩ ⟨-100, -100, -50⟩
        ⟨-200, -200, -75⟩ ⟨0, 0, 0⟩ none 2000 =
      .plan [.moveZ 0, .moveXY (-200) (-200), .moveZ (-75)] := by
  have h := c1_lift_decision ⟨⟨-415, -300, -200⟩, -10, 0⟩ ⟨-100, -100, -50⟩
    ⟨-200, -200, -75⟩ ⟨0, 0, 0⟩ ⟨-200, -200, -75⟩
    (by norm_num [calculateTargetCoordinates, Coordinates.make, round6, roundTo,
      round_eq])
    (by norm_num [validateTargetCoordinates])
    (by norm_num [isAlreadyAtTarget])
  rw [h]
  norm_num [generateMovementCommands]

/-- C1 counterexample: current Z `-5` is at or above
`safe_z_height = -10`, so by the claim no lift is required; yet with X and Y
changing and current Z below `max_z_height = 0` the emitted plan starts with
the lift `G01 Z0`. -/
theorem c1_lift_decision_counterexample :
    (⟨⟨-415, -300, -200⟩, -10, 0⟩ : MillConfig).safe_z_height ≤ (-5 : ℚ) ∧
    safeMovePlan ⟨⟨-415, -300, -200⟩, -10, 0⟩ ⟨-100, -100, -5⟩
        ⟨-200, -200, -5⟩ ⟨0, 0, 0⟩ none 2000 =
      .plan [.moveZ 0, .moveXY (-200) (-200), .moveZ (-5)] := by
  constructor
  · norm_num
  · have h := safeMovePlan_plan ⟨⟨-415, -300, -200⟩, -10, 0⟩ ⟨-100, -100, -5⟩
      ⟨-200, -200, -5⟩ ⟨0, 0, 0⟩ ⟨-200, -200, -5⟩ none 2000
      (by norm_num [calculateTargetCoordinates, Coordinates.make, round6, roundTo,
        round_eq])
      (by norm_num [validateTargetCoordinates])
      (by norm_num [isAlreadyAtTarget])
    rw [h, shouldMove_maxZ_floor]
    norm_num [generateMovementCommands]

/-- A status carrying an error token but no idle token makes the wait loop
raise at once, whatever the clock or the pending polls say. -/
theorem waitForCompletion_raisedError (timeout start now : ℚ) (status : String)
    (polls : List (ℚ × String))
    (hIdle : containsTok "Idle" status = false)
    (herr : containsTok "error" status = true) :
    waitForCompletion timeout status start now polls = .raisedError status := by
  rw [waitForCompletion]
  simp only [hIdle, herr, Bool.false_eq_true, if_false, if_true]

/-- For a non-`$` command, an error-bearing immediate response (no idle
token can appear in it, since it is lowercased) raises inside
`__wait_for_completion` — the `error:22` classifier never runs. -/
theorem execCommand_error_no_retry (fuel : ℕ) (command : String) (e : Exchange)
    (rest : List Exchange)
    (hcmd : strStartsWith command "$" = false)
    (hIdle : containsTok "Idle" (strLower e.response) = false)
    (herr : containsTok "error" (strLower e.response) = true) :
    execCommand (fuel + 1) command (e :: rest) =
      (.failure (strLower e.response), rest) := by
  rw [execCommand]
  rw [if_neg (by rw [hcmd]; exact Bool.false_ne_true)]
  rw [waitForCompletion_raisedError 5 e.t0 e.t0 (strLower e.response) e.polls hIdle herr]

/-- The wait on `errorIdleExchange`: the acknowledgment carries no token,
and the polled chunk contains `Idle`, so the loop exits returning a status
that still holds the `error:22` text. -/
theorem wait_errorIdle :
    waitForCompletion 5 (strLower "ok") 0 0 [(0, "error:22 <Idle|MPos:0,0,0>")] =
      .completed "error:22 <Idle|MPos:0,0,0>" := by
  rw [waitForCompletion]
  simp only [(by decide : containsTok "Idle" (strLower "ok") = false),
    (by decide : containsTok "<Run" (strLower "ok") = false),
    (by decide : containsTok "error" (strLower "ok") = false),
    (by decide : containsTok "alarm" (strLower "ok") = false),
    Bool.false_eq_true, if_false]
  rw [if_neg (by norm_num : ¬((0 : ℚ) - 0 > 5))]
  rw [waitForCompletion]
  simp only [(by decide : containsTok "Idle" "error:22 <Idle|MPos:0,0,0>" = true),
    if_true]

/-- The wait on `okExchange` completes with the clean idle status. -/
theorem wait_okIdle :
    waitForCompletion 5 (strLower "ok") 0 0 [(0, "<Idle|MPos:0,0,0>")] =
      .completed "<Idle|MPos:0,0,0>" := by
  rw [waitForCompletion]
  simp only [(by decide : containsTok "Idle" (strLower "ok") = false),
    (by decide : containsTok "<Run" (strLower "ok") = false),
    (by decide : containsTok "error" (strLower "ok") = false),
    (by decide : containsTok "alarm" (strLower "ok") = false),
    Bool.false_eq_true, if_false]
  rw [if_neg (by norm_num : ¬((0 : ℚ) - 0 > 5))]
  rw [waitForCompletion]
  simp only [(by decide : containsTok "Idle" "<Idle|MPos:0,0,0>" = true), if_true]

/-- When the wait result still contains `error:22` (idle and error shared
one buffered read), the classifier fires: set the feed rate, then re-execute
the original command. -/
theorem execCommand_e22_step (fuel : ℕ) (command : String) (rest : List Exchange)
    (hcmd : strStartsWith command "$" = false) :
    execCommand (fuel + 1) command (errorIdleExchange :: rest) =
      (match execCommand fuel "F2000" rest with
       | (.ok _, rest1) => execCommand fuel command rest1
       | other => other) := by
  rw [execCommand]
  simp only [errorIdleExchange]
  rw [if_neg (by rw [hcmd]; exact Bool.false_ne_true)]
  rw [wait_errorIdle]
  simp only [(by decide : containsTok "error" "error:22 <Idle|MPos:0,0,0>" = true),
    (by decide : containsTok "error:22" "error:22 <Idle|MPos:0,0,0>" = true),
    Bool.true_or, if_true]

/-- A clean exchange returns the idle status. -/
theorem execCommand_ok_step (fuel : ℕ) (command : String) (rest : List Exchange)
    (hcmd : strStartsWith command "$" = false) :
    execCommand (fuel + 1) command (okExchange :: rest) =
      (.ok "<Idle|MPos:0,0,0>", rest) := by
  rw [execCommand]
  simp only [okExchange]
  rw [if_neg (by rw [hcmd]; exact Bool.false_ne_true)]
  rw [wait_okIdle]
  simp only [(by decide : containsTok "error" "<Idle|MPos:0,0,0>" = false),
    (by decide : containsTok "alarm" "<Idle|MPos:0,0,0>" = false),
    Bool.or_self, Bool.false_eq_true, if_false]

/-- Every `error:22` that reaches the classifier is retried — the recursion
has no counter, so `n` such occurrences in a row are all recovered. -/
theorem execCommand_retries (n : ℕ) :
    ∀ (fuel : ℕ) (command : String) (rest : List Exchange),
      2 * n + 1 ≤ fuel → strStartsWith command "$" = false →
      execCommand fuel command
        ((List.replicate n [errorIdleExchange, okExchange]).flatten ++
          okExchange :: rest) = (.ok "<Idle|MPos:0,0,0>", rest) := by
  induction n with
  | zero =>
    intro fuel command rest hfuel hcmd
    obtain ⟨f, rfl⟩ : ∃ f, fuel = f + 1 := ⟨fuel - 1, by omega⟩
    simpa using execCommand_ok_step f command rest hcmd
  | succ n ih =>
    intro fuel command rest hfuel hcmd
    obtain ⟨g, rfl⟩ : ∃ g, fuel = g + 1 + 1 := ⟨fuel - 2, by omega⟩
    rw [List.replicate_succ, List.flatten_cons]
    simp only [List.cons_append, List.nil_append, List.append_assoc]
    rw [execCommand_e22_step (g + 1) command _ hcmd]
    rw [execCommand_ok_step g "F2000" _ (by decide)]
    exact ih (g + 1) command rest (by omega) hcmd

/-- C5 (amended): for a command not starting with `$` — every movement
command, the only source of `error:22` — an error-bearing response raises
inside `__wait_for_completion` before the `error:22` classifier runs, so
the first occurrence already propagates as a command failure with no
feed-rate recovery; the recovery fires only when the error text reaches the
classifier (here: sharing one buffered read with an idle report), and then
it is recursive and unbounded — every further occurrence is retried again
rather than propagating. -/
theorem c5_error22_retry :
    (∀ (fuel : ℕ) (command : String) (e : Exchange) (rest : List Exchange),
        strStartsWith command "$" = false →
        containsTok "Idle" (strLower e.response) = false →
        containsTok "error" (strLower e.response) = true →
        execCommand (fuel + 1) command (e :: rest) =
          (.failure (strLower e.response), rest)) ∧
    (∀ (n fuel : ℕ) (command : String) (rest : List Exchange),
        2 * n + 1 ≤ fuel → strStartsWith command "$" = false →
        execCommand fuel command
          ((List.replicate n [errorIdleExchange, okExchange]).flatten ++
            okExchange :: rest) = (.ok "<Idle|MPos:0,0,0>", rest)) :=
  ⟨execCommand_error_no_retry, execCommand_retries⟩

/-- C5 witness: `G01 X-5` answered `error:22` fails on the first
occurrence; two classifier-reaching `error:22` occurrences are both
retried through to the clean idle result. -/
theorem c5_error22_retry_witness :
    execCommand 1 "G01 X-5" [⟨"error:22", 0, []⟩] =
      (.failure (strLower "error:22"), []) ∧
    execCommand 5 "G01 X-5"
      ((List.replicate 2 [errorIdleExchange, okExchange]).flatten ++
        okExchange :: []) = (.ok "<Idle|MPos:0,0,0>", []) :=
  ⟨c5_error22_retry.1 0 "G01 X-5" ⟨"error:22", 0, []⟩ [] (by decide) (by decide)
     (by decide),
   c5_error22_retry.2 2 5 "G01 X-5" [] (by norm_num) (by decide)⟩

/-- C5 counterexample: against "recovers by setting the feed rate and
re-executing exactly once", the movement command answered `error:22` fails
on its first occurrence with no recovery at all; and against "a second
occurrence propagates", a stream in which `error:22` reaches the
classifier twice is retried both times and ends in success. -/
theorem c5_error22_retry_counterexample :
    execCommand 9 "G01 X-5" [⟨"error:22", 0, []⟩] = (.failure "error:22", []) ∧
    execCommand 9 "G01 X-5"
      [errorIdleExchange, okExchange, errorIdleExchange, okExchange, okExchange] =
      (.ok "<Idle|MPos:0,0,0>", []) := by
  constructor
  · have h := execCommand_error_no_retry 8 "G01 X-5" ⟨"error:22", 0, []⟩ []
      (by decide) (by decide) (by decide)
    rw [h]
    decide
  · have h := execCommand_retries 2 9 "G01 X-5" [] (by norm_num) (by decide)
    simpa using h

/-- C6: the wait-for-completion loop (i) restarts its elapsed-time clock
whenever a running token is observed — the outcome does not depend on the
previous clock origin; (ii) raises a status failure on any observed
non-idle status containing an error or alarm token; (iii) when the current
status carries none of the tokens and the elapsed time exceeds the timeout,
it returns that last observed status instead of raising. -/
theorem c6_wait_completion (timeout t0 now : ℚ) (status : String)
    (polls : List (ℚ × String)) :
    (containsTok "<Run" status = true →
      ∀ s1 s2 : ℚ, waitForCompletion timeout status s1 now polls =
        waitForCompletion timeout status s2 now polls) ∧
    (containsTok "Idle" status = false →
      containsTok "error" status = true ∨ containsTok "alarm" status = true →
      waitForCompletion timeout status t0 now polls = .raisedError status ∨
      waitForCompletion timeout status t0 now polls = .raisedAlarm status) ∧
    (containsTok "Idle" status = false → containsTok "error" status = false →
      containsTok "alarm" status = false → containsTok "<Run" status = false →
      now - t0 > timeout →
      waitForCompletion timeout status t0 now polls = .timedOut status) := by
  refine ⟨?_, ?_, ?_⟩
  · intro hRun s1 s2
    rw [waitForCompletion]
    conv_rhs => rw [waitForCompletion]
    simp only [hRun, if_true]
  · intro hIdle herr
    by_cases h2 : containsTok "error" status = true
    · left
      rw [waitForCompletion]
      simp only [hIdle, h2, Bool.false_eq_true, if_false, if_true]
    · right
      have h2f : containsTok "error" status = false := by
        revert h2; cases containsTok "error" status <;> simp
      rcases herr with h | h
      · exact absurd h h2
      · rw [waitForCompletion]
        simp only [hIdle, h2f, h, Bool.false_eq_true, if_false, if_true]
  · intro hIdle herr halarm hRun htime
    rw [waitForCompletion]
    simp only [hIdle, herr, halarm, hRun, Bool.false_eq_true, if_false]
    rw [if_pos htime]

/-- C6 witness: a running status makes the outcome independent of the old
clock origin; an error status raises; a clean status twenty time units in
with a five-unit timeout is returned as-is. -/
theorem c6_wait_completion_witness :
    (waitForCompletion 5 "<Run|MPos:1,1,1>" 100 10 [] =
     waitForCompletion 5 "<Run|MPos:1,1,1>" 0 10 []) ∧
    (waitForCompletion 5 "error:9" 0 0 [] = .raisedError "error:9" ∨
     waitForCompletion 5 "error:9" 0 0 [] = .raisedAlarm "error:9") ∧
    (waitForCompletion 5 "ok" 0 20 [] = .timedOut "ok") :=
  ⟨(c6_wait_completion 5 0 10 "<Run|MPos:1,1,1>" []).1 (by decide) 100 0,
   (c6_wait_completion 5 0 0 "error:9" []).2.1 (by decide) (Or.inl (by decide)),
   (c6_wait_completion 5 0 20 "ok" []).2.2 (by decide) (by decide) (by decide)
     (by decide) (by norm_num)⟩

/-- C7: for a status report in machine coordinates (status mode 1 or 3),
each extracted axis value is the captured figure rounded to 3 decimals plus
the homing pull-off; with pull-off `1.0` the reported position is the
(3-decimal) machine reading plus exactly `1.0` on each axis, the final
6-decimal rounding being the identity there. -/
theorem c7_mpos_extraction (mode : ℤ) (p rx ry rz : ℚ)
    (hmode : mode = 1 ∨ mode = 3) :
    extractStatusPosition mode p (rx, ry, rz) =
      Coordinates.make (round3 rx + p) (round3 ry + p) (round3 rz + p) ∧
    (p = 1 → extractStatusPosition mode p (rx, ry, rz) =
      ⟨round3 rx + 1, round3 ry + 1, round3 rz + 1⟩) := by
  have hbranch : extractStatusPosition mode p (rx, ry, rz) =
      Coordinates.make (round3 rx + p) (round3 ry + p) (round3 rz + p) := by
    rcases hmode with rfl | rfl <;> simp [extractStatusPosition]
  refine ⟨hbranch, ?_⟩
  rintro rfl
  rw [hbranch]
  have hone : Dec 6 (1 : ℚ) := ⟨10 ^ 6, by norm_num⟩
  have hx : Dec 6 (round3 rx + 1) := ((Dec.roundTo 3 rx).mono (by norm_num)).add hone
  have hy : Dec 6 (round3 ry + 1) := ((Dec.roundTo 3 ry).mono (by norm_num)).add hone
  have hz : Dec 6 (round3 rz + 1) := ((Dec.roundTo 3 rz).mono (by norm_num)).add hone
  unfold Coordinates.make round6
  rw [roundTo_eq_self hx, roundTo_eq_self hy, roundTo_eq_self hz]

/-- C7 witness: machine reading `(2.5, -3.125, 0.75)` with pull-off `1.0`
is reported as `(3.5, -2.125, 1.75)`. -/
theorem c7_mpos_extraction_witness :
    extractStatusPosition 1 1 (5 / 2, -25 / 8, 3 / 4) =
      ⟨7 / 2, -17 / 8, 7 / 4⟩ := by
  have h := (c7_mpos_extraction 1 1 (5 / 2) (-25 / 8) (3 / 4) (Or.inl rfl)).2 rfl
  rw [h]
  show Coordinates.mk _ _ _ = _
  norm_num [round3, roundTo, round_eq]

/-- C8: the claim says connect refreshes `working_volume` from the settings
just read; in the source, `connect_to_mill` calls `read_working_volume()`
on line 353 but discards the returned volume, so after connecting with
device settings that enable soft limits (travel 100 on each axis) while the
session was initialised from a config without them, `working_volume` still
holds the startup fallback `(-415, -300, -200)` instead of the
`(-100, -100, -100)` derivable from the settings just read. -/
theorem c8_connect_stale_working_volume :
    (connectToMill (millInit ⟨0, 415, 300, 200⟩) ⟨1, 100, 100, 100⟩).working_volume =
      Coordinates.make (-415) (-300) (-200) ∧
    readWorkingVolume
        (connectToMill (millInit ⟨0, 415, 300, 200⟩) ⟨1, 100, 100, 100⟩).config =
      Coordinates.make (-100) (-100) (-100) ∧
    (connectToMill (millInit ⟨0, 415, 300, 200⟩) ⟨1, 100, 100, 100⟩).working_volume ≠
      readWorkingVolume
        (connectToMill (millInit ⟨0, 415, 300, 200⟩) ⟨1, 100, 100, 100⟩).config := by
  refine ⟨?_, ?_, ?_⟩
  · norm_num [connectToMill, millInit, readWorkingVolume]
  · norm_num [connectToMill, millInit, readWorkingVolume, Coordinates.make]
  · norm_num [connectToMill, millInit, readWorkingVolume, Coordinates.make,
      Coordinates.mk.injEq, round6, roundTo, round_eq]

/-- Looking a key up in a store starting with entry `p` inspects `p` first. -/
theorem lookupTool_cons (p : String × Coordinates) (tl : ToolStore) (key : String) :
    lookupTool (p :: tl) key =
      if p.1 == key then some p.2 else lookupTool tl key := by
  by_cases h : (p.1 == key) = true
  · rw [if_pos h]
    unfold lookupTool
    rw [@List.find?_cons_of_pos _ (fun q => q.1 == key) p tl h]
    rfl
  · rw [if_neg h]
    unfold lookupTool
    rw [@List.find?_cons_of_neg _ (fun q => q.1 == key) p tl h]

/-- Overwriting the offset stored under one name leaves every other name
unchanged. -/
theorem lookupTool_setTool_ne (store : ToolStore) (n : String) (off : Coordinates)
    (key : String) (h : n ≠ key) :
    lookupTool (setTool store n off) key = lookupTool store key := by
  induction store with
  | nil => rfl
  | cons p tl ih =>
    simp only [setTool, List.map_cons]
    by_cases hpn : (p.1 == n) = true
    · rw [if_pos hpn]
      have hpk : (p.1 == key) = false := by
        rw [beq_iff_eq] at hpn
        rw [beq_eq_false_iff_ne, hpn]
        exact h
      rw [lookupTool_cons, lookupTool_cons]
      show (if (p.1 == key) = true then _ else _) = _
      rw [hpk]
      simp only [Bool.false_eq_true, if_false]
      exact ih
    · rw [if_neg hpn]
      rw [lookupTool_cons, lookupTool_cons]
      by_cases hpk : (p.1 == key) = true
      · rw [if_pos hpk, if_pos hpk]
      · rw [if_neg hpk, if_neg hpk]
        exact ih

/-- Appending a new entry under one name leaves every other name
unchanged. -/
theorem lookupTool_append_ne (store : ToolStore) (n : String) (off : Coordinates)
    (key : String) (h : n ≠ key) :
    lookupTool (store ++ [(n, off)]) key = lookupTool store key := by
  have hnk : (n == key) = false := beq_eq_false_iff_ne.2 h
  induction store with
  | nil =>
    rw [List.nil_append, lookupTool_cons]
    show (if (n == key) = true then _ else _) = _
    rw [hnk]
    simp only [Bool.false_eq_true, if_false]
  | cons p tl ih =>
    rw [List.cons_append, lookupTool_cons, lookupTool_cons]
    by_cases hpk : (p.1 == key) = true
    · rw [if_pos hpk, if_pos hpk]
    · rw [if_neg hpk, if_neg hpk]
      exact ih

/-- Deleting the entries stored under one name leaves every other name
unchanged. -/
theorem lookupTool_filter_ne (store : ToolStore) (n key : String) (h : n ≠ key) :
    lookupTool (store.filter fun p => !(p.1 == n)) key = lookupTool store key := by
  induction store with
  | nil => rfl
  | cons p tl ih =>
    rw [List.filter_cons]
    by_cases hpn : (p.1 == n) = true
    · simp only [hpn, Bool.not_true, Bool.false_eq_true, if_false]
      have hpk : (p.1 == key) = false := by
        rw [beq_iff_eq] at hpn
        rw [beq_eq_false_iff_ne, hpn]
        exact h
      rw [lookupTool_cons]
      show _ = (if (p.1 == key) = true then _ else _)
      rw [hpk]
      simp only [Bool.false_eq_true, if_false]
      exact ih
    · have hpn' : (p.1 == n) = false := by revert hpn; cases p.1 == n <;> simp
      simp only [hpn', Bool.not_false, if_true]
      rw [lookupTool_cons, lookupTool_cons]
      by_cases hpk : (p.1 == key) = true
      · rw [if_pos hpk, if_pos hpk]
      · rw [if_neg hpk, if_neg hpk]
        exact ih

/-- A tool operation addressing a different name never changes what a key
maps to. -/
theorem lookupTool_applyToolOp_ne (store : ToolStore) (op : ToolOp) (key : String)
    (h : op.target ≠ key) :
    lookupTool (applyToolOp store op) key = lookupTool store key := by
  cases op with
  | add n off =>
    simp only [ToolOp.target] at h
    simp only [applyToolOp]
    by_cases hs : hasTool store n = true
    · rw [if_pos hs]
      exact lookupTool_setTool_ne store n off key h
    · rw [if_neg hs]
      exact lookupTool_append_ne store n off key h
  | update n off =>
    simp only [ToolOp.target] at h
    simp only [applyToolOp]
    by_cases hs : hasTool store n = true
    · rw [if_pos hs]
      exact lookupTool_setTool_ne store n off key h
    · rw [if_neg hs]
  | delete n =>
    simp only [ToolOp.target] at h
    simp only [applyToolOp]
    by_cases hs : hasTool store n = true
    · rw [if_pos hs]
      exact lookupTool_filter_ne store n key h
    · rw [if_neg hs]
  | get n => rfl

/-- C9: starting from the default tool set written when storage is absent
or corrupt, any sequence of add/update/delete/get operations none of which
addresses the `center` tool leaves the store containing `center` with
offset `(0, 0, 0)`. -/
theorem c9_center_tool_invariant (ops : List ToolOp)
    (h : ∀ op ∈ ops, op.target ≠ "center") :
    lookupTool (applyToolOps defaultToolJson ops) "center" =
      some (Coordinates.make 0 0 0) := by
  suffices haux : ∀ (ops : List ToolOp) (store : ToolStore),
      (∀ op ∈ ops, op.target ≠ "center") →
      lookupTool (applyToolOps store ops) "center" = lookupTool store "center" by
    rw [haux ops defaultToolJson h]
    rfl
  intro ops
  induction ops with
  | nil => intro store _; rfl
  | cons op tl ih =>
    intro store hops
    have h1 : op.target ≠ "center" := hops op (List.mem_cons_self op tl)
    have h2 : ∀ o ∈ tl, o.target ≠ "center" :=
      fun o ho => hops o (List.mem_cons_of_mem op ho)
    show lookupTool (applyToolOps (applyToolOp store op) tl) "center" = _
    rw [ih (applyToolOp store op) h2]
    exact lookupTool_applyToolOp_ne store op "center" h1

/-- C9 witness: an add, an update, a delete and a get on other tools leave
`center` at offset `(0, 0, 0)`. -/
theorem c9_center_tool_invariant_witness :
    lookupTool (applyToolOps defaultToolJson
      [.add "probe" (Coordinates.make 1 2 3),
       .update "pipette" (Coordinates.make 4 5 6),
       .delete "lens", .get "electrode"]) "center" =
      some (Coordinates.make 0 0 0) :=
  c9_center_tool_invariant _ (by decide)

end CNC
